import Mathlib

/-!
Verification development for the mesh-toolkit task-orchestration subsystem
(packages/mesh-toolkit).  The definitions below are shallow embeddings of the
Python source: `mesh_toolkit/client.py` (transport, rate limiting, retries,
polling, downloads), `mesh_toolkit/services/text3d_service.py` together with
`mesh_toolkit/persistence/schemas.py` (task submission recording), and — where
the repository ships only the interface or tests — models built from the
specification (spec canonicalizer, batch generation).
-/

namespace MeshToolkit

open scoped List

/-! ## Transport: MeshyClient._request (client.py lines 64-92)

One HTTP attempt is classified exactly as the body of `_request` classifies the
`httpx` response: a 429 becomes a `RateLimitError` (carrying the parsed
`retry-after` value, which the Python code interpolates into the message
string), any other non-2xx status raises `httpx.HTTPStatusError` via
`raise_for_status`, and a network timeout raises `httpx.TimeoutException`.
The `tenacity` decorator wraps the attempt: it retries exceptions of type
`HTTPStatusError`, `TimeoutException` or `RateLimitError`, stops after 3
attempts (raising `tenacity.RetryError` around the last exception), and waits
`wait_exponential(multiplier=1, min=2, max=10)` between attempts. -/

/-- Outcome of one underlying `httpx` send: either a timeout, or a response
with a status code and an optional `retry-after` header value. -/
inductive HttpAttempt where
  | timeout : HttpAttempt
  | response (status : Nat) (retryAfter : Option String) : HttpAttempt

/-- Errors raised inside `MeshyClient._request`: `RateLimitError` (with the
`retry-after` seconds parsed from the header, if any — the Python code puts
this value into the exception message), `httpx.HTTPStatusError` from
`raise_for_status`, and `httpx.TimeoutException`. -/
inductive MeshyError where
  | rateLimitError (retryAfter : Option ℚ) : MeshyError
  | httpStatusError (status : Nat) : MeshyError
  | timeoutException : MeshyError
deriving DecidableEq

/-- Failure surfacing from the retried `_request` call: `tenacity.RetryError`
wrapping the last attempt, or an exception re-raised untouched because it is
not of a retried type (unreachable here, since every `MeshyError` is retried,
but kept for faithfulness to the decorator semantics). -/
inductive RequestFailure where
  | retryError (last : MeshyError) : RequestFailure
  | raised (e : MeshyError) : RequestFailure
deriving DecidableEq

/-- Numeric value of a list of decimal digit characters. -/
def digitsVal (cs : List Char) : Nat :=
  cs.foldl (fun acc c => acc * 10 + (c.toNat - 48)) 0

/-- Model of `float(retry_after)` on the plain decimal strings the header
carries (digits with an optional fractional part); any other string fails to
parse, matching the `except ValueError: pass` path in `_request`. -/
def parseRetryAfter (s : String) : Option ℚ :=
  match s.toList.splitOn '.' with
  | [ip] =>
      if ip ≠ [] ∧ ip.all Char.isDigit then some (digitsVal ip) else none
  | [ip, fp] =>
      if (ip ≠ [] ∨ fp ≠ []) ∧ ip.all Char.isDigit ∧ fp.all Char.isDigit then
        some ((digitsVal ip : ℚ) + (digitsVal fp : ℚ) / (10 : ℚ) ^ fp.length)
      else none
  | _ => none

/-- The body of `MeshyClient._request` on one attempt: check 429 first (raising
`RateLimitError` with the parsed `retry-after`), then `raise_for_status`
(raising `HTTPStatusError` on any non-2xx), else return the response, here
represented by its status code. -/
def singleAttempt : HttpAttempt → Except MeshyError Nat
  | .timeout => .error .timeoutException
  | .response s ra =>
      if s = 429 then .error (.rateLimitError (ra.bind parseRetryAfter))
      else if 200 ≤ s ∧ s < 300 then .ok s
      else .error (.httpStatusError s)

/-- The `retry_if_exception_type((httpx.HTTPStatusError, httpx.TimeoutException,
RateLimitError))` predicate of the decorator on `_request`. -/
def isRetryable : MeshyError → Bool
  | .rateLimitError _ => true
  | .httpStatusError _ => true
  | .timeoutException => true

/-- Maximum of two rationals, written out so that concrete instances reduce in
the kernel. -/
def qmax (a b : ℚ) : ℚ := if a ≤ b then b else a

/-- Minimum of two rationals, written out so that concrete instances reduce in
the kernel. -/
def qmin (a b : ℚ) : ℚ := if a ≤ b then a else b

/-- Wait computed by `tenacity.wait_exponential(multiplier, min, max)` before
the retry following failed attempt number `n` (1-based):
`clamp(min, max, multiplier * 2 ^ (n - 1))`. -/
def waitExponential (multiplier mn mx : ℚ) (n : Nat) : ℚ :=
  qmax (qmax 0 mn) (qmin (multiplier * (2 : ℚ) ^ (n - 1)) mx)

/-- Result of running `_request` under the tenacity decorator: the number of
attempts that were made, the waits slept between attempts, and the final
outcome. -/
structure RunResult where
  attempts : Nat
  waits : List ℚ
  outcome : Except RequestFailure Nat

/-- The tenacity retry loop around one `_request` attempt: `n` is the current
attempt number, `remaining` how many further attempts `stop_after_attempt`
still allows.  A non-retryable exception would be re-raised directly; once
attempts are exhausted the last exception is wrapped in `RetryError`. -/
def runRetry (events : Nat → HttpAttempt) : Nat → Nat → List ℚ → RunResult
  | n, remaining, ws =>
      match singleAttempt (events n) with
      | .ok r => ⟨n, ws, .ok r⟩
      | .error e =>
          if isRetryable e then
            match remaining with
            | 0 => ⟨n, ws, .error (.retryError e)⟩
            | r + 1 => runRetry events (n + 1) r (ws ++ [waitExponential 1 2 10 n])
          else ⟨n, ws, .error (.raised e)⟩

/-- Model of `MeshyClient._request` as decorated: attempt numbers start at 1 and
`stop_after_attempt(3)` allows two retries after the first attempt. -/
def meshyRequest (events : Nat → HttpAttempt) : RunResult :=
  runRetry events 1 2 []

theorem waitExponential_eval (n : Nat) (h1 : 1 ≤ n) (h4 : n ≤ 4) :
    waitExponential 1 2 10 n = if n ≤ 2 then 2 else if n = 3 then 4 else 8 := by
  interval_cases n <;> simp [waitExponential, qmax, qmin] <;> norm_num

theorem waitExponential_one : waitExponential 1 2 10 1 = 2 := by
  simpa using waitExponential_eval 1 (by norm_num) (by norm_num)

theorem waitExponential_two : waitExponential 1 2 10 2 = 2 := by
  simpa using waitExponential_eval 2 (by norm_num) (by norm_num)

example : meshyRequest (fun _ => .response 204 none) = ⟨1, [], .ok 204⟩ := rfl

example :
    meshyRequest (fun _ => .response 400 none) =
      ⟨3, [2, 2], .error (.retryError (.httpStatusError 400))⟩ := by
  simp [meshyRequest, runRetry, singleAttempt, isRetryable,
    waitExponential_one, waitExponential_two]

example : parseRetryAfter "banana" = none := by decide

theorem parseRetryAfter_seven : parseRetryAfter "7" = some 7 := by
  have h : (List.splitOn '.' ['7']) = [['7']] := by decide
  simp [parseRetryAfter, h, digitsVal]

theorem isRetryable_true (e : MeshyError) : isRetryable e = true := by
  cases e <;> rfl

/-- Claim C1: the claim states that a non-2xx, non-429, non-5xx response (for
example 400) causes a request-failed error with exactly one attempt and no
retry.  Counterexample: with every response being a plain 400, `_request`
makes 3 attempts, because `raise_for_status` raises `httpx.HTTPStatusError`
and that exception type is listed in `retry_if_exception_type`; the failure
surfaces as `tenacity.RetryError`, not after a single attempt. -/
theorem c1_counterexample :
    (meshyRequest (fun _ => .response 400 none)).attempts = 3 ∧
    ¬ (meshyRequest (fun _ => .response 400 none)).attempts = 1 ∧
    (meshyRequest (fun _ => .response 400 none)).outcome =
      .error (.retryError (.httpStatusError 400)) :=
  ⟨rfl, by decide, rfl⟩

/-- Claim C1 (amended): for every response status that is neither 2xx nor 429, each
attempt of the Transport request operation raises `httpx.HTTPStatusError`;
since that type is among the retried exception types, exactly 3 attempts are
made (with the default backoff waits) and the failure surfaces wrapped in a
retries-exhausted `tenacity.RetryError` carrying the status error. -/
theorem c1_non2xx_is_retried (s : Nat) (h2xx : ¬ (200 ≤ s ∧ s < 300))
    (h429 : s ≠ 429) :
    meshyRequest (fun _ => .response s none) =
      ⟨3, [2, 2], .error (.retryError (.httpStatusError s))⟩ := by
  have hs : singleAttempt (.response s none) = .error (.httpStatusError s) := by
    simp [singleAttempt, h429, h2xx]
  simp [meshyRequest, runRetry, hs, isRetryable,
    waitExponential_one, waitExponential_two]

/-- Witness for C1 (amended) at the concrete status 404. -/
theorem c1_witness :
    meshyRequest (fun _ => .response 404 none) =
      ⟨3, [2, 2], .error (.retryError (.httpStatusError 404))⟩ :=
  c1_non2xx_is_retried 404 (by decide) (by decide)

/-- Claim C3: the claim states that a numeric `retry-after` value on a 429 response
is surfaced on the `RateLimited` error for the retry policy to honor.
Counterexample: with every response being 429 carrying `retry-after: 7`, the
value 7 is parsed and surfaced on the `RateLimitError`, but the retry policy
waits the default backoff of 2 seconds before each retry, not 7 seconds:
`wait_exponential` never reads the surfaced value. -/
theorem c3_counterexample :
    singleAttempt (.response 429 (some "7")) =
      .error (.rateLimitError (some 7)) ∧
    (meshyRequest (fun _ => .response 429 (some "7"))).waits = [2, 2] ∧
    ¬ (meshyRequest (fun _ => .response 429 (some "7"))).waits = [7, 7] := by
  have hs : singleAttempt (.response 429 (some "7")) =
      .error (.rateLimitError (some 7)) := by
    simp [singleAttempt, parseRetryAfter_seven]
  refine ⟨hs, ?_, ?_⟩ <;>
    simp [meshyRequest, runRetry, hs, isRetryable,
      waitExponential_one, waitExponential_two]

/-- Claim C3 (amended): every 429 response raises a `RateLimitError`; when the
`retry-after` header parses as a number the parsed value is surfaced on the
raised error (the Python code interpolates it into the message), but the
retry policy ignores it: regardless of the header, the waits between the 3
attempts are the default backoff `[2, 2]`, and the failure surfaces as a
retries-exhausted error wrapping the rate-limit error. -/
theorem c3_rate_limited (raOpt : Option String) :
    meshyRequest (fun _ => .response 429 raOpt) =
      ⟨3, [2, 2],
        .error (.retryError (.rateLimitError (raOpt.bind parseRetryAfter)))⟩ := by
  have hs : singleAttempt (.response 429 raOpt) =
      .error (.rateLimitError (raOpt.bind parseRetryAfter)) := by
    simp [singleAttempt]
  simp [meshyRequest, runRetry, hs, isRetryable,
    waitExponential_one, waitExponential_two]

/-- Claim C4: when every attempt fails with a retryable condition (rate limit,
HTTP status error, or network timeout — all three retried exception types),
exactly the configured ceiling of 3 attempts is made, the final failure is a
retries-exhausted error wrapping the last cause, and each successive wait is
the clamped exponential backoff, lying within [2, 10] and non-decreasing. -/
theorem c4_retries_exhausted (events : Nat → HttpAttempt)
    (h : ∀ n, 1 ≤ n → n ≤ 3 → ∃ e, singleAttempt (events n) = .error e) :
    (meshyRequest events).attempts = 3 ∧
    (∃ e, singleAttempt (events 3) = .error e ∧
      (meshyRequest events).outcome = .error (.retryError e)) ∧
    (meshyRequest events).waits =
      [waitExponential 1 2 10 1, waitExponential 1 2 10 2] ∧
    (∀ w ∈ (meshyRequest events).waits, 2 ≤ w ∧ w ≤ 10) ∧
    (meshyRequest events).waits.Chain' (· ≤ ·) := by
  obtain ⟨e1, h1⟩ := h 1 (by norm_num) (by norm_num)
  obtain ⟨e2, h2⟩ := h 2 (by norm_num) (by norm_num)
  obtain ⟨e3, h3⟩ := h 3 (by norm_num) (by norm_num)
  have hrun : meshyRequest events =
      ⟨3, [waitExponential 1 2 10 1, waitExponential 1 2 10 2],
        .error (.retryError e3)⟩ := by
    simp [meshyRequest, runRetry, h1, h2, h3, isRetryable_true]
  refine ⟨by rw [hrun], ⟨e3, h3, by rw [hrun]⟩, by rw [hrun], ?_, ?_⟩ <;>
    · rw [hrun]
      simp [waitExponential_one, waitExponential_two]
      try norm_num

/-! ## Rate-limit spacing: MeshyClient._rate_limit (client.py lines 56-62)

`_rate_limit` reads the wall clock, sleeps the remainder of the 500ms minimum
interval since `last_request_time`, and stores the new issue time.  Only
`_request` calls it; the v1 endpoints (`create_rigging`, `get_rigging`,
`create_animation`, `get_animation`, `create_retexture`, `get_retexture`,
client.py lines 137-200) call `self.client.request` directly without touching
the limiter.  Time is modelled in milliseconds with exact sleeps. -/

/-- An outbound call on the client: either a method routed through `_request`
(the v2 text-to-3d, text-to-texture and image-to-3d create/get methods), or
one of the v1 methods that send directly without `_rate_limit`. -/
inductive MeshyOp where
  | viaRequest : MeshyOp
  | v1Direct : MeshyOp
deriving DecidableEq

/-- Issue time produced by `_rate_limit`: if less than 500ms passed since the
stored last request time, sleep the remainder, so the request leaves at
`last + 500`; otherwise it leaves immediately. -/
def rateLimitIssue (last now : Nat) : Nat :=
  if now - last < 500 then last + 500 else now

/-- Issue times of a sequence of client calls.  Each list entry is the
operation kind together with the wall-clock time at which the call reaches
the client; `last` is the stored `last_request_time`.  `viaRequest` entries go
through `rateLimitIssue` and update the stored time, `v1Direct` entries are
issued at their arrival time and leave the limiter state untouched. -/
def issueTimes : Nat → List (MeshyOp × Nat) → List Nat
  | _, [] => []
  | last, (op, now) :: rest =>
      match op with
      | .viaRequest =>
          let t := rateLimitIssue last now
          t :: issueTimes t rest
      | .v1Direct => now :: issueTimes last rest

theorem rateLimitIssue_ge (last now : Nat) :
    last + 500 ≤ rateLimitIssue last now := by
  unfold rateLimitIssue
  split <;> omega

theorem issueTimes_length (last : Nat) (trace : List (MeshyOp × Nat)) :
    (issueTimes last trace).length = trace.length := by
  induction trace generalizing last with
  | nil => rfl
  | cons p rest ih =>
      obtain ⟨op, now⟩ := p
      cases op <;> simp [issueTimes, ih]

theorem issueTimes_chain (trace : List (MeshyOp × Nat)) :
    ∀ last, (∀ p ∈ trace, p.1 = MeshyOp.viaRequest) →
      (issueTimes last trace).Chain' (fun a b => a + 500 ≤ b) := by
  induction trace with
  | nil => intro last _; simp [issueTimes]
  | cons p rest ih =>
      intro last hop
      obtain ⟨op, now⟩ := p
      have hop0 : op = MeshyOp.viaRequest := hop (op, now) (by simp)
      subst hop0
      rw [issueTimes, List.chain'_cons']
      refine ⟨?_, ih _ (fun q hq => hop q (by simp [hq]))⟩
      intro y hy
      cases rest with
      | nil => simp [issueTimes] at hy
      | cons q rest2 =>
          obtain ⟨op2, now2⟩ := q
          have hop2 : op2 = MeshyOp.viaRequest := hop (op2, now2) (by simp)
          subst hop2
          simp [issueTimes] at hy
          subst hy
          exact rateLimitIssue_ge _ _

theorem chain_elapsed (l : List Nat)
    (hc : l.Chain' (fun a b => a + 500 ≤ b)) (h : l ≠ []) :
    l.head h + (l.length - 1) * 500 ≤ l.getLast h := by
  induction l with
  | nil => exact absurd rfl h
  | cons a tl ih =>
      cases tl with
      | nil => simp
      | cons b tl2 =>
          rw [List.chain'_cons'] at hc
          have hab : a + 500 ≤ b := hc.1 b (by simp)
          have htl := ih hc.2 (by simp)
          rw [List.getLast_cons (by simp)]
          simp only [List.head_cons, List.length_cons] at htl ⊢
          omega

/-- Claim C2: the claim quantifies over all create/get/request methods of the
Transport.  Counterexample: `create_rigging` (client.py lines 137-149) issues
its request directly, without calling `_rate_limit`, so two consecutive
`create_rigging` calls arriving at the same instant are both issued at that
instant — the elapsed time between the 2 requests is 0, less than the
(2-1) * 500ms the claim demands. -/
theorem c2_counterexample :
    issueTimes 1000 [(MeshyOp.v1Direct, 2000), (MeshyOp.v1Direct, 2000)] =
      [2000, 2000] ∧
    ¬ (2000 + (2 - 1) * 500 ≤ 2000) :=
  ⟨rfl, by decide⟩

/-- Claim C2 (amended): for every sequence of N consecutive outbound requests routed
through `_request` (the v2 text-to-3d, text-to-texture and image-to-3d
create/get methods), consecutive issue times are at least 500ms apart, so the
time from the first to the last request is at least (N-1) * 500ms.  The v1
rigging/animation/retexture methods bypass `_rate_limit` and carry no such
guarantee. -/
theorem c2_rate_limit_spacing (last : Nat) (trace : List (MeshyOp × Nat))
    (hop : ∀ p ∈ trace, p.1 = MeshyOp.viaRequest) (hne : trace ≠ []) :
    ∃ h : issueTimes last trace ≠ [],
      (issueTimes last trace).Chain' (fun a b => a + 500 ≤ b) ∧
      (issueTimes last trace).head h +
          ((issueTimes last trace).length - 1) * 500 ≤
        (issueTimes last trace).getLast h := by
  have hlen : (issueTimes last trace).length = trace.length :=
    issueTimes_length last trace
  have hts : issueTimes last trace ≠ [] := by
    intro hnil
    apply hne
    have : trace.length = 0 := by rw [← hlen, hnil]; rfl
    exact List.length_eq_zero.mp this
  have hc := issueTimes_chain trace last hop
  exact ⟨hts, hc, chain_elapsed _ hc hts⟩

/-- Witness for C2 (amended): two `_request` calls arriving at times 1000ms
and 1000ms are issued at 1000ms and 1500ms, 500ms apart. -/
theorem c2_witness :
    ∃ h : issueTimes 0 [(MeshyOp.viaRequest, 1000), (MeshyOp.viaRequest, 1000)] ≠ [],
      (issueTimes 0 [(MeshyOp.viaRequest, 1000), (MeshyOp.viaRequest, 1000)]).Chain'
          (fun a b => a + 500 ≤ b) ∧
      (issueTimes 0 [(MeshyOp.viaRequest, 1000), (MeshyOp.viaRequest, 1000)]).head h +
          ((issueTimes 0 [(MeshyOp.viaRequest, 1000),
            (MeshyOp.viaRequest, 1000)]).length - 1) * 500 ≤
        (issueTimes 0 [(MeshyOp.viaRequest, 1000),
          (MeshyOp.viaRequest, 1000)]).getLast h :=
  c2_rate_limit_spacing 0 _ (by intro p hp; simp at hp; simp [hp]) (by simp)

/-! ## Polling: MeshyClient.poll_until_complete (client.py lines 204-254)

The loop polls the status endpoint, returns the result on `SUCCEEDED`, raises
`RuntimeError` on `FAILED` or `EXPIRED`, and otherwise checks
`elapsed > max_wait` before sleeping `poll_interval` and polling again.  With
instantaneous polls the elapsed time when checking after poll number `i`
(0-based) is `i * poll_interval`.  The Python loop is `while True`; here it
carries fuel, with `pollUntilComplete` supplying enough fuel that the
`interrupted` artifact is never reached (see the claim proofs). -/

/-- Task status enum from `mesh_toolkit/models.py` / `persistence/schemas.py`. -/
inductive TaskStatus where
  | PENDING : TaskStatus
  | IN_PROGRESS : TaskStatus
  | SUCCEEDED : TaskStatus
  | FAILED : TaskStatus
  | EXPIRED : TaskStatus
deriving DecidableEq

/-- A parsed poll result: its status plus an abstract payload standing for the
rest of the result object. -/
structure TaskResult where
  status : TaskStatus
  payload : Nat
deriving DecidableEq

/-- Errors raised by `poll_until_complete`: `RuntimeError` on a failed task,
`RuntimeError` on an expired task, `TimeoutError` after `max_wait`, and the
fuel-exhaustion artifact of the embedding (never produced under the fuel used
by `pollUntilComplete`). -/
inductive PollError where
  | taskFailed : PollError
  | taskExpired : PollError
  | timeout : PollError
  | interrupted : PollError
deriving DecidableEq

/-- The statuses on which the polling loop exits (terminal statuses). -/
def isTerminal : TaskStatus → Bool
  | .SUCCEEDED => true
  | .FAILED => true
  | .EXPIRED => true
  | _ => false

/-- Body of the `while True` polling loop: `res i` is the result of the i-th
poll, `fuel` bounds the remaining iterations. -/
def pollGo (res : Nat → TaskResult) (interval maxWait : Nat) :
    Nat → Nat → Except PollError TaskResult
  | 0, _ => .error .interrupted
  | fuel + 1, i =>
      let r := res i
      if r.status = .SUCCEEDED then .ok r
      else if r.status = .FAILED then .error .taskFailed
      else if r.status = .EXPIRED then .error .taskExpired
      else if maxWait < i * interval then .error .timeout
      else pollGo res interval maxWait fuel (i + 1)

/-- Largest poll index whose elapsed time does not exceed the deadline; the
timeout branch fires at the following index. -/
def pollBound (interval maxWait : Nat) : Nat := maxWait / interval

/-- Model of `MeshyClient.poll_until_complete`: run the polling loop from poll 0 with
fuel `max_wait / poll_interval + 2`, which the claim proofs show is enough to
reach the timeout check or the terminal poll in every case. -/
def pollUntilComplete (res : Nat → TaskResult) (interval maxWait : Nat) :
    Except PollError TaskResult :=
  pollGo res interval maxWait (pollBound interval maxWait + 2) 0

theorem not_terminal_iff (s : TaskStatus) :
    isTerminal s = false ↔
      (s ≠ .SUCCEEDED ∧ s ≠ .FAILED ∧ s ≠ .EXPIRED) := by
  cases s <;> simp [isTerminal]

theorem pollGo_step (res : Nat → TaskResult) (interval maxWait fuel i : Nat)
    (hnt : isTerminal (res i).status = false) (hbudget : i * interval ≤ maxWait) :
    pollGo res interval maxWait (fuel + 1) i =
      pollGo res interval maxWait fuel (i + 1) := by
  have h := (not_terminal_iff _).1 hnt
  simp [pollGo, h.1, h.2.1, h.2.2, Nat.not_lt.mpr hbudget]

theorem pollGo_skip (res : Nat → TaskResult) (interval maxWait : Nat) :
    ∀ k fuel i,
      (∀ j, j < k →
        isTerminal (res (i + j)).status = false ∧ (i + j) * interval ≤ maxWait) →
      pollGo res interval maxWait (fuel + k) i =
        pollGo res interval maxWait fuel (i + k) := by
  intro k
  induction k with
  | zero => intro fuel i _; rfl
  | succ k ih =>
      intro fuel i h
      have h0 := h 0 (by omega)
      rw [show fuel + (k + 1) = (fuel + k) + 1 from by omega]
      rw [pollGo_step res interval maxWait (fuel + k) i (by simpa using h0.1)
        (by simpa using h0.2)]
      have hrec := ih fuel (i + 1) (fun j hj => by
        have hh := h (j + 1) (by omega)
        rwa [show i + (j + 1) = i + 1 + j from by omega] at hh)
      rw [hrec, show i + 1 + k = i + (k + 1) from by omega]

theorem pollGo_timeout (res : Nat → TaskResult) (interval maxWait : Nat)
    (hpos : 0 < interval)
    (hnt : ∀ n, isTerminal (res n).status = false) :
    ∀ fuel i, pollBound interval maxWait + 2 ≤ fuel + i →
      i ≤ pollBound interval maxWait + 1 →
      pollGo res interval maxWait fuel i = .error .timeout := by
  intro fuel
  induction fuel with
  | zero => intro i h1 h2; omega
  | succ fuel ih =>
      intro i h1 h2
      by_cases hto : maxWait < i * interval
      · have h := (not_terminal_iff _).1 (hnt i)
        simp [pollGo, h.1, h.2.1, h.2.2, hto]
      · have hbudget : i * interval ≤ maxWait := Nat.not_lt.mp hto
        have hle : i ≤ pollBound interval maxWait := by
          unfold pollBound
          exact (Nat.le_div_iff_mul_le hpos).2 hbudget
        rw [pollGo_step res interval maxWait fuel i (hnt i) hbudget]
        exact ih (i + 1) (by omega) (by omega)

theorem pollReach (res : Nat → TaskResult) (interval maxWait : Nat)
    (hpos : 0 < interval) (k : Nat)
    (h : ∀ j, j < k →
      isTerminal (res j).status = false ∧ j * interval ≤ maxWait) :
    ∃ m, pollUntilComplete res interval maxWait =
      pollGo res interval maxWait (m + 1) k := by
  have hk : k ≤ pollBound interval maxWait + 1 := by
    cases k with
    | zero => omega
    | succ k0 =>
        have hb := (h k0 (by omega)).2
        have hk0 : k0 ≤ pollBound interval maxWait := by
          unfold pollBound
          exact (Nat.le_div_iff_mul_le hpos).2 hb
        omega
  refine ⟨pollBound interval maxWait + 1 - k, ?_⟩
  unfold pollUntilComplete
  rw [show pollBound interval maxWait + 2 =
    (pollBound interval maxWait + 1 - k + 1) + k from by omega]
  rw [pollGo_skip res interval maxWait k _ 0 (fun j hj => by simpa using h j hj)]
  rw [Nat.zero_add]

/-- Claim C5: `poll_until_complete` returns the result when a poll reports
`SUCCEEDED`, raises a task-failure error on `FAILED` and on `EXPIRED`, raises
a deadline-exceeded timeout error once more than `max_wait` has elapsed when
every poll reports a non-terminal status (`PENDING` or `IN_PROGRESS`), and
the terminal statuses are exactly `SUCCEEDED`, `FAILED`, `EXPIRED`. -/
theorem c5_poll_until_complete (res : Nat → TaskResult) (interval maxWait : Nat)
    (hpos : 0 < interval) :
    (∀ k, (∀ j, j < k →
        isTerminal (res j).status = false ∧ j * interval ≤ maxWait) →
      ((res k).status = .SUCCEEDED →
        pollUntilComplete res interval maxWait = .ok (res k)) ∧
      ((res k).status = .FAILED →
        pollUntilComplete res interval maxWait = .error .taskFailed) ∧
      ((res k).status = .EXPIRED →
        pollUntilComplete res interval maxWait = .error .taskExpired)) ∧
    ((∀ n, (res n).status = .PENDING ∨ (res n).status = .IN_PROGRESS) →
      pollUntilComplete res interval maxWait = .error .timeout) ∧
    (∀ s, isTerminal s = true ↔
      (s = .SUCCEEDED ∨ s = .FAILED ∨ s = .EXPIRED)) := by
  refine ⟨?_, ?_, ?_⟩
  · intro k h
    obtain ⟨m, hm⟩ := pollReach res interval maxWait hpos k h
    refine ⟨?_, ?_, ?_⟩ <;> intro hs <;> rw [hm] <;> simp [pollGo, hs]
  · intro hnt
    have hnt2 : ∀ n, isTerminal (res n).status = false := by
      intro n
      rcases hnt n with h | h <;> simp [isTerminal, h]
    unfold pollUntilComplete
    exact pollGo_timeout res interval maxWait hpos hnt2 _ 0 (by omega) (by omega)
  · intro s
    cases s <;> simp [isTerminal]

/-- Witness for C5: one `IN_PROGRESS` poll followed by a `SUCCEEDED` poll,
with a 5 second interval and a 600 second deadline, returns the succeeded
result. -/
theorem c5_witness :
    pollUntilComplete
        (fun i => if i = 0 then ⟨.IN_PROGRESS, 0⟩ else ⟨.SUCCEEDED, 42⟩) 5 600 =
      .ok ⟨.SUCCEEDED, 42⟩ :=
  ((c5_poll_until_complete
      (fun i => if i = 0 then ⟨.IN_PROGRESS, 0⟩ else ⟨.SUCCEEDED, 42⟩) 5 600
      (by norm_num)).1 1
    (fun j hj => by interval_cases j; exact ⟨rfl, by norm_num⟩)).1 rfl

/-- Witness for C4 at the concrete input where every attempt receives a 500
server error. -/
theorem c4_witness :
    (meshyRequest (fun _ => .response 500 none)).attempts = 3 ∧
    (∃ e, singleAttempt ((fun _ => HttpAttempt.response 500 none) 3) = .error e ∧
      (meshyRequest (fun _ => .response 500 none)).outcome =
        .error (.retryError e)) ∧
    (meshyRequest (fun _ => .response 500 none)).waits =
      [waitExponential 1 2 10 1, waitExponential 1 2 10 2] ∧
    (∀ w ∈ (meshyRequest (fun _ => .response 500 none)).waits, 2 ≤ w ∧ w ≤ 10) ∧
    (meshyRequest (fun _ => .response 500 none)).waits.Chain' (· ≤ ·) :=
  c4_retries_exhausted (fun _ => .response 500 none)
    (fun _ _ _ => ⟨.httpStatusError 500, rfl⟩)

/-! ## Downloads: MeshyClient.download_file (client.py lines 256-265)

`download_file` performs a single `httpx.get` (not routed through `_request`,
so no retry), calls `raise_for_status`, creates the parent directory of the
output path with `os.makedirs(..., exist_ok=True)`, writes the body, and
returns `len(response.content)`.  The filesystem is modelled as a directory
list plus a path-to-bytes map; `dirname` follows `posixpath.dirname`. -/

/-- Model of `os.path.dirname` (posix): everything up to the last slash, with
trailing slashes stripped unless the head is all slashes. -/
def dirname (p : String) : String :=
  let head := ((p.toList.reverse.dropWhile (fun c => c ≠ '/')).reverse)
  if head.isEmpty then ""
  else if head.all (fun c => c = '/') then String.mk head
  else String.mk ((head.reverse.dropWhile (fun c => c = '/')).reverse)

example : dirname "models/characters/otter.glb" = "models/characters" := by decide

example : dirname "otter.glb" = "" := by decide

/-- Local filesystem state: existing directories and file contents (bytes). -/
structure Fs where
  dirs : List String
  files : List (String × List Nat)

/-- Model of `os.makedirs(d, exist_ok=True)` restricted to the directory entry
being created. -/
def mkdirs (d : String) (dirs : List String) : List String :=
  if d ∈ dirs then dirs else d :: dirs

/-- Model of `open(path, "wb").write(content)`: replace any previous content. -/
def setFile (path : String) (content : List Nat)
    (files : List (String × List Nat)) : List (String × List Nat) :=
  (path, content) :: files.filter (fun pc => pc.1 ≠ path)

/-- Content of a file, if present. -/
def lookupFile (path : String) (files : List (String × List Nat)) :
    Option (List Nat) :=
  (files.find? (fun pc => pc.1 = path)).map Prod.snd

/-- Outcome of the single `httpx.get(url)` call inside `download_file`. -/
inductive DlEvent where
  | timeout : DlEvent
  | response (status : Nat) (content : List Nat) : DlEvent

/-- Result of `download_file`: how many fetches were issued (always one — the
function has no retry loop) and either the new filesystem with the byte count
returned, or the propagated error. -/
structure DlResult where
  attempts : Nat
  outcome : Except MeshyError (Fs × Nat)

/-- Model of `MeshyClient.download_file`: single fetch, `raise_for_status`, `makedirs`
on the dirname, write, return the byte count. -/
def downloadFile (events : Nat → DlEvent) (outputPath : String) (fs : Fs) :
    DlResult :=
  { attempts := 1
    outcome :=
      match events 0 with
      | .timeout => .error .timeoutException
      | .response s content =>
          if 200 ≤ s ∧ s < 300 then
            .ok (⟨mkdirs (dirname outputPath) fs.dirs,
                  setFile outputPath content fs.files⟩, content.length)
          else .error (.httpStatusError s) }

theorem mem_mkdirs (d : String) (dirs : List String) : d ∈ mkdirs d dirs := by
  unfold mkdirs
  split
  · assumption
  · exact List.mem_cons_self d dirs

theorem lookupFile_setFile (path : String) (content : List Nat)
    (files : List (String × List Nat)) :
    lookupFile path (setFile path content files) = some content := by
  simp [lookupFile, setFile, List.find?]

/-- Claim C8: a successful `download_file` call creates the parent directory of the
destination if absent, writes the response body there, and returns exactly the
number of bytes written; a non-2xx response or a network error propagates to
the caller unchanged, and in every case exactly one fetch is made — there is
no retry around downloads. -/
theorem c8_download_file (events : Nat → DlEvent) (path : String) (fs : Fs) :
    (downloadFile events path fs).attempts = 1 ∧
    (∀ s content, events 0 = .response s content → (200 ≤ s ∧ s < 300) →
      (downloadFile events path fs).outcome =
        .ok (⟨mkdirs (dirname path) fs.dirs, setFile path content fs.files⟩,
          content.length) ∧
      dirname path ∈ mkdirs (dirname path) fs.dirs ∧
      lookupFile path (setFile path content fs.files) = some content) ∧
    (∀ s content, events 0 = .response s content → ¬ (200 ≤ s ∧ s < 300) →
      (downloadFile events path fs).outcome = .error (.httpStatusError s)) ∧
    (events 0 = .timeout →
      (downloadFile events path fs).outcome = .error .timeoutException) := by
  refine ⟨rfl, ?_, ?_, ?_⟩
  · intro s content hev h2xx
    refine ⟨?_, mem_mkdirs _ _, lookupFile_setFile _ _ _⟩
    simp [downloadFile, hev, h2xx]
  · intro s content hev h2xx
    simp [downloadFile, hev, h2xx]
  · intro hev
    simp [downloadFile, hev]

/-- Witness for C8: downloading 3 bytes into `models/a.glb` on an empty
filesystem returns 3 and creates `models`. -/
theorem c8_witness :
    (downloadFile (fun _ => .response 200 [7, 8, 9]) "models/a.glb" ⟨[], []⟩).outcome =
      .ok (⟨mkdirs (dirname "models/a.glb") [], setFile "models/a.glb" [7, 8, 9] []⟩,
        ([7, 8, 9] : List Nat).length) ∧
    dirname "models/a.glb" ∈ mkdirs (dirname "models/a.glb") [] ∧
    lookupFile "models/a.glb" (setFile "models/a.glb" [7, 8, 9] []) =
      some [7, 8, 9] :=
  (c8_download_file (fun _ => .response 200 [7, 8, 9]) "models/a.glb"
    ⟨[], []⟩).2.1 200 [7, 8, 9] rfl (by norm_num)

/-! ## Authentication: MeshyClient.__init__ (client.py lines 38-54)

`__init__` sets `self.api_key = api_key or os.getenv("MESHY_API_KEY")` and
raises `ValueError("MESHY_API_KEY not set")` when the result is falsy (absent
or empty).  `_headers` attaches `Authorization: Bearer <key>` to every request
built by `_request` (v2) and by the direct v1 methods, all of which pass
`headers=self._headers()`. -/

/-- The fatal configuration error raised by `__init__`. -/
inductive ConfigError where
  | missingApiKey : ConfigError
deriving DecidableEq

/-- Client state after construction. -/
structure MeshyClientState where
  apiKey : String
deriving DecidableEq

/-- Python `api_key or os.getenv("MESHY_API_KEY")`: an empty or absent
argument falls through to the environment value. -/
def pyOr (arg env : Option String) : Option String :=
  match arg with
  | some s => if s = "" then env else some s
  | none => env

/-- Model of `MeshyClient.__init__` restricted to its credential logic. -/
def meshyClientInit (apiKeyArg envKey : Option String) :
    Except ConfigError MeshyClientState :=
  match pyOr apiKeyArg envKey with
  | none => .error .missingApiKey
  | some k => if k = "" then .error .missingApiKey else .ok ⟨k⟩

/-- Model of `MeshyClient._headers`. -/
def headersOf (c : MeshyClientState) : List (String × String) :=
  [("Authorization", "Bearer " ++ c.apiKey), ("Content-Type", "application/json")]

/-- An outbound HTTP request as assembled by the client. -/
structure OutboundRequest where
  method : String
  url : String
  headers : List (String × String)

/-- Request assembled by `_request` (v2 endpoints). -/
def buildV2Request (c : MeshyClientState) (method endpoint : String) :
    OutboundRequest :=
  ⟨method, "https://api.meshy.ai/openapi/v2/" ++ endpoint, headersOf c⟩

/-- Request assembled by the direct v1 methods (rigging, animations,
retexture), which also pass `headers=self._headers()`. -/
def buildV1Request (c : MeshyClientState) (method endpoint : String) :
    OutboundRequest :=
  ⟨method, "https://api.meshy.ai/openapi/v1/" ++ endpoint, headersOf c⟩

/-- Claim C9: constructing the client with no bearer token from either the argument
or the environment fails with the fatal configuration error before any
request can be made; with a non-empty token from either route construction
succeeds and every assembled request (v2 and v1 alike) carries the token as a
Bearer authorization header. -/
theorem c9_bearer_token (apiKeyArg envKey : Option String) :
    ((pyOr apiKeyArg envKey = none ∨ pyOr apiKeyArg envKey = some "") →
      meshyClientInit apiKeyArg envKey = .error .missingApiKey) ∧
    (∀ k, pyOr apiKeyArg envKey = some k → k ≠ "" →
      meshyClientInit apiKeyArg envKey = .ok ⟨k⟩ ∧
      ∀ method endpoint,
        ("Authorization", "Bearer " ++ k) ∈
          (buildV2Request ⟨k⟩ method endpoint).headers ∧
        ("Authorization", "Bearer " ++ k) ∈
          (buildV1Request ⟨k⟩ method endpoint).headers) := by
  constructor
  · rintro (h | h) <;> simp [meshyClientInit, h]
  · intro k hk hne
    refine ⟨by simp [meshyClientInit, hk, hne], ?_⟩
    intro method endpoint
    constructor <;> simp [buildV2Request, buildV1Request, headersOf]

/-- Witness for C9: an explicit key argument with no environment key yields a
client whose v2 requests carry the Bearer header. -/
theorem c9_witness :
    meshyClientInit (some "KEY") none = .ok ⟨"KEY"⟩ ∧
    ("Authorization", "Bearer " ++ "KEY") ∈
      (buildV2Request ⟨"KEY"⟩ "POST" "text-to-3d").headers :=
  have h := (c9_bearer_token (some "KEY") none).2 "KEY" (by decide) (by decide)
  ⟨h.1, (h.2 "POST" "text-to-3d").1⟩

/-! ## Spec canonicalizer (persistence/utils.py, modelled from the spec)

`canonicalize_spec` and `compute_spec_hash` are re-exported by
`mesh_toolkit/persistence/__init__.py` from `persistence/utils.py`, which is
not among the sources; the model below follows the specification: mapping
keys sorted lexicographically at every nesting level, sequence order left
intact, a fixed whitespace-free encoding, null fields omitted, and the
fingerprint a deterministic digest of the canonical string. -/

/-- A JSON-like payload value. -/
inductive Json where
  | null : Json
  | bool (b : Bool) : Json
  | num (n : Int) : Json
  | str (s : String) : Json
  | arr (xs : List Json) : Json
  | obj (fields : List (String × Json)) : Json

/-- Whether a value is the JSON null. -/
def isNull : Json → Bool
  | .null => true
  | _ => false

/-- Rendered form of one object field (the key is quoted). -/
def fieldStr (p : String × String) : String :=
  "\"" ++ p.1 ++ "\":" ++ p.2

/-- Strict lexicographic order on character lists (code-point order, the
order in which Python compares `str` keys under `sort_keys=True`). -/
def keyLtB : List Char → List Char → Bool
  | [], [] => false
  | [], _ :: _ => true
  | _ :: _, [] => false
  | a :: as, b :: bs => if a = b then keyLtB as bs else decide (a < b)

theorem keyLtB_asymm : ∀ a b, keyLtB a b = true → keyLtB b a = false := by
  intro a
  induction a with
  | nil =>
      intro b h
      cases b with
      | nil => simp [keyLtB] at h
      | cons b bs => simp [keyLtB]
  | cons a as ih =>
      intro b h
      cases b with
      | nil => simp [keyLtB] at h
      | cons b bs =>
          by_cases hab : a = b
          · subst hab
            simp [keyLtB] at h ⊢
            exact ih bs h
          · simp [keyLtB, hab, Ne.symm hab] at h ⊢
            exact le_of_lt h

theorem keyLtB_trans :
    ∀ a b c, keyLtB a b = true → keyLtB b c = true → keyLtB a c = true := by
  intro a
  induction a with
  | nil =>
      intro b c h1 h2
      cases b with
      | nil => simp [keyLtB] at h1
      | cons b bs =>
          cases c with
          | nil => simp [keyLtB] at h2
          | cons c cs => simp [keyLtB]
  | cons a as ih =>
      intro b c h1 h2
      cases b with
      | nil => simp [keyLtB] at h1
      | cons b bs =>
          cases c with
          | nil => simp [keyLtB] at h2
          | cons c cs =>
              by_cases hab : a = b <;> by_cases hbc : b = c
              · subst hab; subst hbc
                simp [keyLtB] at h1 h2 ⊢
                exact ih bs cs h1 h2
              · subst hab
                simp [keyLtB, hbc] at h2 ⊢
                exact h2
              · subst hbc
                simp [keyLtB, hab] at h1 ⊢
                exact h1
              · simp [keyLtB, hab] at h1
                simp [keyLtB, hbc] at h2
                have hac : a < c := lt_trans h1 h2
                simp [keyLtB, ne_of_lt hac, hac]

theorem keyLtB_trichotomy :
    ∀ a b, keyLtB a b = true ∨ a = b ∨ keyLtB b a = true := by
  intro a
  induction a with
  | nil =>
      intro b
      cases b with
      | nil => simp
      | cons b bs => simp [keyLtB]
  | cons a as ih =>
      intro b
      cases b with
      | nil => simp [keyLtB]
      | cons b bs =>
          rcases lt_trichotomy a b with hab | hab | hab
          · left; simp [keyLtB, ne_of_lt hab, hab]
          · subst hab
            rcases ih bs with h | h | h
            · left; simp [keyLtB, h]
            · right; left; rw [h]
            · right; right; simp [keyLtB, h]
          · right; right; simp [keyLtB, ne_of_lt hab, hab]

/-- Key order on rendered fields: non-strict lexicographic order on the key. -/
def fieldLe (p q : String × String) : Prop :=
  keyLtB q.1.toList p.1.toList = false

/-- Strict key order on rendered fields. -/
def fieldLt (p q : String × String) : Prop :=
  keyLtB p.1.toList q.1.toList = true

instance : DecidableRel fieldLe := fun p q =>
  inferInstanceAs (Decidable (keyLtB q.1.toList p.1.toList = false))

instance : IsTotal (String × String) fieldLe :=
  ⟨fun p q => by
    unfold fieldLe
    cases h : keyLtB q.1.toList p.1.toList with
    | false => exact Or.inl rfl
    | true => exact Or.inr (keyLtB_asymm _ _ h)⟩

instance : IsTrans (String × String) fieldLe :=
  ⟨fun p q r h1 h2 => by
    unfold fieldLe at h1 h2 ⊢
    by_contra hc
    have hlt : keyLtB r.1.toList p.1.toList = true := by
      cases h : keyLtB r.1.toList p.1.toList with
      | false => exact absurd h hc
      | true => rfl
    rcases keyLtB_trichotomy r.1.toList q.1.toList with h | h | h
    · rw [h] at h2; exact Bool.noConfusion h2
    · rw [h] at hlt; rw [hlt] at h1; exact Bool.noConfusion h1
    · have h3 : keyLtB q.1.toList p.1.toList = true :=
        keyLtB_trans _ _ _ h hlt
      rw [h3] at h1; exact Bool.noConfusion h1⟩

instance : IsAntisymm (String × String) fieldLt :=
  ⟨fun p q h1 h2 => by
    unfold fieldLt at h1 h2
    have := keyLtB_asymm _ _ h1
    rw [this] at h2
    exact Bool.noConfusion h2⟩

theorem string_toList_inj {s t : String} (h : s.toList = t.toList) : s = t := by
  cases s with
  | mk d1 =>
      cases t with
      | mk d2 =>
          simp [String.toList] at h
          exact congrArg String.mk h

theorem fieldLt_of_fieldLe_of_ne {p q : String × String} (hle : fieldLe p q)
    (hne : p.1 ≠ q.1) : fieldLt p q := by
  unfold fieldLe at hle
  unfold fieldLt
  rcases keyLtB_trichotomy p.1.toList q.1.toList with h | h | h
  · exact h
  · exact absurd (string_toList_inj h) hne
  · rw [h] at hle; exact Bool.noConfusion hle

/-- Sort rendered fields by key (the model of `sort_keys=True`). -/
def sortFields (l : List (String × String)) : List (String × String) :=
  l.insertionSort fieldLe

mutual

/-- Modelled from the spec: `canonicalize_spec` — recursively sort mapping
keys, keep sequence order, serialize with a fixed whitespace-free encoding,
omit null fields. -/
def canonicalize : Json → String
  | .null => "null"
  | .bool true => "true"
  | .bool false => "false"
  | .num n => toString n
  | .str s => "\"" ++ s ++ "\""
  | .arr xs => "[" ++ String.intercalate "," (canonList xs) ++ "]"
  | .obj fs =>
      "\x7b" ++
        String.intercalate "," ((sortFields (renderFields fs)).map fieldStr) ++
      "\x7d"

/-- Canonical forms of the elements of a sequence, in order. -/
def canonList : List Json → List String
  | [] => []
  | x :: xs => canonicalize x :: canonList xs

/-- Rendered (key, canonical value) pairs of an object, in original order,
with null-valued fields omitted. -/
def renderFields : List (String × Json) → List (String × String)
  | [] => []
  | (k, v) :: fs =>
      if isNull v then renderFields fs
      else (k, canonicalize v) :: renderFields fs

end

/-- Modelled from the spec: deterministic stand-in for the SHA-256 hex digest
used by `compute_spec_hash`; the canonicalization claim depends only on the
digest being a function of the canonical string. -/
def specDigest (s : String) : Nat :=
  s.toList.foldl (fun h c => (h * 131 + c.toNat) % 1000000007) 5381

/-- Modelled from the spec: `compute_spec_hash` — digest of the canonical
form. -/
def computeSpecHash (j : Json) : Nat := specDigest (canonicalize j)

/-- Find the value stored under key `k` and the remaining fields. -/
def lookupRemove (k : String) :
    List (String × Json) → Option (Json × List (String × Json))
  | [] => none
  | (k2, v) :: rest =>
      if k2 = k then some (v, rest)
      else
        match lookupRemove k rest with
        | some (w, rest2) => some (w, (k2, v) :: rest2)
        | none => none

mutual

/-- Decides whether two payloads are equal up to reordering of mapping keys
at any nesting level (sequences must match pointwise, in order). -/
def equivB : Json → Json → Bool
  | .null, .null => true
  | .bool b, .bool c => b == c
  | .num n, .num m => n == m
  | .str s, .str t => s == t
  | .arr xs, .arr ys => equivListB xs ys
  | .obj fs, .obj gs => equivFieldsB fs gs
  | _, _ => false

/-- Pointwise key-reorder equivalence of two sequences. -/
def equivListB : List Json → List Json → Bool
  | [], [] => true
  | x :: xs, y :: ys => equivB x y && equivListB xs ys
  | _, _ => false

/-- Multiset matching of object fields: each field of the first list is
matched and removed from the second by key, with equivalent values. -/
def equivFieldsB : List (String × Json) → List (String × Json) → Bool
  | [], gs => gs.isEmpty
  | (k, v) :: fs, gs =>
      match lookupRemove k gs with
      | some (w, rest) => equivB v w && equivFieldsB fs rest
      | none => false

end

example :
    equivB (.obj [("b", .num 1), ("a", .num 2)])
      (.obj [("a", .num 2), ("b", .num 1)]) = true := by decide

example : renderFields [("b", .num 1), ("a", .num 2)] = [("b", "1"), ("a", "2")] := by
  decide

example : sortFields [("b", "1"), ("a", "2")] = [("a", "2"), ("b", "1")] := by decide

example : canonicalize (.obj [("b", .num 1), ("a", .num 2)]) =
    "\x7b\"a\":2,\"b\":1\x7d" := by decide

/-- Whether a list of keys contains a duplicate. -/
def hasDupKeys : List String → Bool
  | [] => false
  | k :: ks => decide (k ∈ ks) || hasDupKeys ks

mutual

/-- Well-formed payload: every object has pairwise-distinct keys (as Python
dictionaries always do). -/
def wfB : Json → Bool
  | .null => true
  | .bool _ => true
  | .num _ => true
  | .str _ => true
  | .arr xs => wfListB xs
  | .obj fs => !hasDupKeys (fs.map Prod.fst) && wfFieldsB fs

/-- Well-formedness of every element of a sequence. -/
def wfListB : List Json → Bool
  | [] => true
  | x :: xs => wfB x && wfListB xs

/-- Well-formedness of every field value. -/
def wfFieldsB : List (String × Json) → Bool
  | [] => true
  | (_, v) :: fs => wfB v && wfFieldsB fs

end

theorem renderFields_eq_filterMap (l : List (String × Json)) :
    renderFields l =
      l.filterMap
        (fun p => if isNull p.2 then none else some (p.1, canonicalize p.2)) := by
  induction l with
  | nil => simp [renderFields]
  | cons p fs ih =>
      obtain ⟨k, v⟩ := p
      by_cases hn : isNull v = true
      · simp [renderFields, hn, List.filterMap_cons, ih]
      · simp [renderFields, hn, List.filterMap_cons, ih]

theorem renderFields_perm {gs gs2 : List (String × Json)} (h : gs ~ gs2) :
    renderFields gs ~ renderFields gs2 := by
  rw [renderFields_eq_filterMap, renderFields_eq_filterMap]
  exact h.filterMap _

theorem lookupRemove_perm (k : String) :
    ∀ (gs : List (String × Json)) (w : Json) (rest : List (String × Json)),
      lookupRemove k gs = some (w, rest) → gs ~ (k, w) :: rest := by
  intro gs
  induction gs with
  | nil => intro w rest h; simp [lookupRemove] at h
  | cons p gs2 ih =>
      intro w rest h
      obtain ⟨k2, v⟩ := p
      by_cases hk : k2 = k
      · subst hk
        simp [lookupRemove] at h
        obtain ⟨hw, hrest⟩ := h
        subst hw
        subst hrest
        exact List.Perm.refl _
      · simp [lookupRemove, hk] at h
        cases hlr : lookupRemove k gs2 with
        | none => rw [hlr] at h; simp at h
        | some pr =>
            obtain ⟨w2, rest2⟩ := pr
            rw [hlr] at h
            simp at h
            obtain ⟨rfl, rfl⟩ := h
            exact ((ih _ _ hlr).cons _).trans (List.Perm.swap _ _ _)

theorem equivB_isNull : ∀ v w, equivB v w = true → isNull v = isNull w := by
  intro v w h
  cases v <;> cases w <;> simp_all [equivB, isNull]

theorem hasDupKeys_eq_false {ks : List String} :
    hasDupKeys ks = false ↔ ks.Nodup := by
  induction ks with
  | nil => simp [hasDupKeys]
  | cons k ks ih =>
      simp [hasDupKeys, Bool.or_eq_false_iff, ih, List.nodup_cons,
        decide_eq_false_iff_not]

theorem renderKeys_sublist (l : List (String × Json)) :
    ((renderFields l).map Prod.fst).Sublist (l.map Prod.fst) := by
  induction l with
  | nil => simp [renderFields]
  | cons p fs ih =>
      obtain ⟨k, v⟩ := p
      by_cases hn : isNull v = true
      · simp only [renderFields, hn, if_true, List.map_cons]
        exact ih.cons _
      · simp only [renderFields, hn, if_false, List.map_cons,
          Bool.not_eq_true] at ih ⊢
        rw [if_neg (by simp [hn])]
        simp only [List.map_cons]
        exact ih.cons₂ _

theorem sortFields_perm (l : List (String × String)) : sortFields l ~ l :=
  List.perm_insertionSort fieldLe l

theorem pairwise_fieldLt_sortFields (l : List (String × String))
    (hnd : (l.map Prod.fst).Nodup) : (sortFields l).Pairwise fieldLt := by
  have hs : (sortFields l).Pairwise fieldLe := List.sorted_insertionSort fieldLe l
  have hperm : (sortFields l).map Prod.fst ~ l.map Prod.fst :=
    (sortFields_perm l).map _
  have hnd2 : ((sortFields l).map Prod.fst).Nodup := hperm.nodup_iff.2 hnd
  have hne : (sortFields l).Pairwise (fun p q => p.1 ≠ q.1) :=
    List.pairwise_map.1 hnd2
  exact (hs.and hne).imp (fun h => fieldLt_of_fieldLe_of_ne h.1 h.2)

theorem sortFields_eq_of_perm {l1 l2 : List (String × String)} (hp : l1 ~ l2)
    (hnd : (l1.map Prod.fst).Nodup) : sortFields l1 = sortFields l2 := by
  have hperm : sortFields l1 ~ sortFields l2 :=
    (sortFields_perm l1).trans (hp.trans (sortFields_perm l2).symm)
  have hnd2 : (l2.map Prod.fst).Nodup := ((hp.map Prod.fst).nodup_iff).1 hnd
  exact List.eq_of_perm_of_sorted hperm
    (pairwise_fieldLt_sortFields l1 hnd) (pairwise_fieldLt_sortFields l2 hnd2)

mutual

theorem canonEquiv (a b : Json) (he : equivB a b = true) (hw : wfB a = true) :
    canonicalize a = canonicalize b :=
  match a, b, he, hw with
  | .null, .null, _, _ => rfl
  | .bool b1, .bool b2, he, _ => by
      have h : b1 = b2 := by simpa [equivB] using he
      rw [h]
  | .num n, .num m, he, _ => by
      have h : n = m := by simpa [equivB] using he
      rw [h]
  | .str s, .str t, he, _ => by
      have h : s = t := by simpa [equivB] using he
      rw [h]
  | .arr xs, .arr ys, he, hw => by
      have h := canonEquivList xs ys (by simpa [equivB] using he)
        (by simpa [wfB] using hw)
      simp [canonicalize, h]
  | .obj fs, .obj gs, he, hw => by
      have he2 : equivFieldsB fs gs = true := by simpa [equivB] using he
      have hw2 : hasDupKeys (fs.map Prod.fst) = false ∧ wfFieldsB fs = true := by
        simpa [wfB, Bool.and_eq_true, Bool.not_eq_true'] using hw
      have hperm := canonEquivFields fs gs he2 hw2.2
      have hnd : ((renderFields fs).map Prod.fst).Nodup :=
        (hasDupKeys_eq_false.1 hw2.1).sublist (renderKeys_sublist fs)
      have hsort : sortFields (renderFields fs) = sortFields (renderFields gs) :=
        sortFields_eq_of_perm hperm hnd
      simp [canonicalize, hsort]
  | .null, .bool _, he, _ | .null, .num _, he, _ | .null, .str _, he, _
  | .null, .arr _, he, _ | .null, .obj _, he, _ => by simp [equivB] at he
  | .bool _, .null, he, _ | .bool _, .num _, he, _ | .bool _, .str _, he, _
  | .bool _, .arr _, he, _ | .bool _, .obj _, he, _ => by simp [equivB] at he
  | .num _, .null, he, _ | .num _, .bool _, he, _ | .num _, .str _, he, _
  | .num _, .arr _, he, _ | .num _, .obj _, he, _ => by simp [equivB] at he
  | .str _, .null, he, _ | .str _, .bool _, he, _ | .str _, .num _, he, _
  | .str _, .arr _, he, _ | .str _, .obj _, he, _ => by simp [equivB] at he
  | .arr _, .null, he, _ | .arr _, .bool _, he, _ | .arr _, .num _, he, _
  | .arr _, .str _, he, _ | .arr _, .obj _, he, _ => by simp [equivB] at he
  | .obj _, .null, he, _ | .obj _, .bool _, he, _ | .obj _, .num _, he, _
  | .obj _, .str _, he, _ | .obj _, .arr _, he, _ => by simp [equivB] at he

theorem canonEquivList (xs ys : List Json) (he : equivListB xs ys = true)
    (hw : wfListB xs = true) : canonList xs = canonList ys :=
  match xs, ys, he, hw with
  | [], [], _, _ => rfl
  | x :: xs2, y :: ys2, he, hw => by
      have h1 : equivB x y = true ∧ equivListB xs2 ys2 = true := by
        simpa [equivListB, Bool.and_eq_true] using he
      have h2 : wfB x = true ∧ wfListB xs2 = true := by
        simpa [wfListB, Bool.and_eq_true] using hw
      have hc := canonEquiv x y h1.1 h2.1
      have hl := canonEquivList xs2 ys2 h1.2 h2.2
      simp [canonList, hc, hl]
  | [], _ :: _, he, _ => by simp [equivListB] at he
  | _ :: _, [], he, _ => by simp [equivListB] at he

theorem canonEquivFields (fs gs : List (String × Json))
    (he : equivFieldsB fs gs = true) (hw : wfFieldsB fs = true) :
    renderFields fs ~ renderFields gs :=
  match fs, he, hw with
  | [], he, _ => by
      have h : gs = [] := by simpa [equivFieldsB, List.isEmpty_iff] using he
      subst h
      exact List.Perm.refl _
  | (k, v) :: fs2, he, hw => by
      cases hlr : lookupRemove k gs with
      | none => simp [equivFieldsB, hlr] at he
      | some pr =>
          obtain ⟨w, rest⟩ := pr
          have h1 : equivB v w = true ∧ equivFieldsB fs2 rest = true := by
            simpa [equivFieldsB, hlr, Bool.and_eq_true] using he
          have h2 : wfB v = true ∧ wfFieldsB fs2 = true := by
            simpa [wfFieldsB, Bool.and_eq_true] using hw
          have hgs : gs ~ (k, w) :: rest := lookupRemove_perm k gs w rest hlr
          have hrgs : renderFields gs ~ renderFields ((k, w) :: rest) :=
            renderFields_perm hgs
          have hnull : isNull v = isNull w := equivB_isNull v w h1.1
          have ihrest : renderFields fs2 ~ renderFields rest :=
            canonEquivFields fs2 rest h1.2 h2.2
          by_cases hn : isNull v = true
          · have hwn : isNull w = true := hnull ▸ hn
            have hrw : renderFields ((k, w) :: rest) = renderFields rest := by
              rw [renderFields, if_pos hwn]
            rw [hrw] at hrgs
            rw [renderFields, if_pos hn]
            exact ihrest.trans hrgs.symm
          · have hwn : ¬ isNull w = true := by rw [← hnull]; exact hn
            have hcv : canonicalize v = canonicalize w := canonEquiv v w h1.1 h2.1
            have hrw : renderFields ((k, w) :: rest) =
                (k, canonicalize w) :: renderFields rest := by
              rw [renderFields, if_neg hwn]
            rw [hrw] at hrgs
            rw [renderFields, if_neg hn, hcv]
            exact (ihrest.cons _).trans hrgs.symm

end

/-- Claim C6: canonicalize and fingerprint are invariant under reordering of the
keys of any mapping at any nesting level (sequence order intact): for
well-formed payloads (objects with distinct keys, as Python dictionaries
always are), key-reorder-equivalent payloads have byte-identical canonical
strings and therefore identical fingerprints.  Spec-modelled:
`persistence/utils.py` is not among the sources. -/
theorem c6_canonicalization (a b : Json) (hw : wfB a = true)
    (he : equivB a b = true) :
    canonicalize a = canonicalize b ∧ computeSpecHash a = computeSpecHash b := by
  have h := canonEquiv a b he hw
  refine ⟨h, ?_⟩
  unfold computeSpecHash
  rw [h]

/-- Witness for C6: a nested payload with reordered keys at both levels
canonicalizes and fingerprints identically. -/
theorem c6_witness :
    canonicalize
        (.obj [("prompt", .str "otter"),
          ("meta", .obj [("b", .num 1), ("a", .num 2)])]) =
      canonicalize
        (.obj [("meta", .obj [("a", .num 2), ("b", .num 1)]),
          ("prompt", .str "otter")]) ∧
    computeSpecHash
        (.obj [("prompt", .str "otter"),
          ("meta", .obj [("b", .num 1), ("a", .num 2)])]) =
      computeSpecHash
        (.obj [("meta", .obj [("a", .num 2), ("b", .num 1)]),
          ("prompt", .str "otter")]) :=
  c6_canonicalization _ _ (by decide) (by decide)

/-! ## Batch generation (jobs.py, modelled from the spec)

`AssetGenerator.batch_generate` of `mesh_toolkit/jobs.py` is not among the
sources (only its tests in tests/test_jobs.py are); modelled from the spec:
iterate the input specs, catch any failure of one spec, log it, and continue;
return only the successful manifests, in input order. -/

/-- Modelled from the spec: `batch_generate` iterates the specs, appending the
manifest on success and swallowing (logging) the raised error on failure. -/
def batchGenerate {Spec Manifest GenError : Type}
    (generateModel : Spec → Except GenError Manifest) :
    List Spec → List Manifest
  | [] => []
  | s :: rest =>
      match generateModel s with
      | .ok m => m :: batchGenerate generateModel rest
      | .error _ => batchGenerate generateModel rest

/-- Claim C7: for every per-spec outcome function, `batchGenerate` is total (no
error propagates past the batch boundary), never aborts on a failing spec,
and returns exactly the manifests of the specs with a successful outcome, in
input order, failures omitted. -/
theorem c7_batch_isolation {Spec Manifest GenError : Type}
    (generateModel : Spec → Except GenError Manifest) (specs : List Spec) :
    batchGenerate generateModel specs =
      specs.filterMap (fun s => (generateModel s).toOption) := by
  induction specs with
  | nil => rfl
  | cons s rest ih =>
      cases h : generateModel s with
      | ok m =>
          simp [batchGenerate, h, List.filterMap_cons, Except.toOption, ih]
      | error e =>
          simp [batchGenerate, h, List.filterMap_cons, Except.toOption, ih]

/-! ## Task submission: Text3DService.submit_task (services/text3d_service.py
lines 17-85) with persistence/schemas.py TaskSubmission

`submit_task` posts the payload, reads `data["result"]` (a `KeyError` when
the key is absent), raises `ValueError` when the task id is falsy (null or
empty), computes the spec hash of the payload, constructs
`TaskSubmission(task_id=…, spec_hash=…, project=…, service="text3d",
status=PENDING, callback_url=…)` and records it.  The schema in
`persistence/schemas.py` declares the required field `species`, not
`project`, so the pydantic construction validates field by field in
declaration order. -/

/-- Python exceptions raised on the `submit_task` paths. -/
inductive PyError where
  | keyError (key : String) : PyError
  | valueError (msg : String) : PyError
  | pydanticValidationError (missingField : String) : PyError
deriving DecidableEq

/-- A keyword-argument value passed to the `TaskSubmission` constructor. -/
inductive FieldVal where
  | s (v : String) : FieldVal
  | st (v : TaskStatus) : FieldVal
deriving DecidableEq

/-- Model of `schemas.TaskSubmission` (required fields; the two timestamp fields carry
default factories and are omitted from the model). -/
structure TaskSubmissionRec where
  task_id : String
  spec_hash : String
  species : String
  service : String
  status : TaskStatus
  callback_url : String
deriving DecidableEq

/-- Value supplied for a keyword argument, if any. -/
def lookupKw (name : String) (kwargs : List (String × FieldVal)) :
    Option FieldVal :=
  (kwargs.find? (fun p => p.1 = name)).map Prod.snd

/-- Pydantic validation of one required string field. -/
def getStrField (kwargs : List (String × FieldVal)) (name : String) :
    Except PyError String :=
  match lookupKw name kwargs with
  | some (.s v) => .ok v
  | _ => .error (.pydanticValidationError name)

/-- Pydantic validation of one required status field. -/
def getStatusField (kwargs : List (String × FieldVal)) (name : String) :
    Except PyError TaskStatus :=
  match lookupKw name kwargs with
  | some (.st v) => .ok v
  | _ => .error (.pydanticValidationError name)

/-- Pydantic construction of `schemas.TaskSubmission`: every required field
must be supplied by name (extra keyword arguments are ignored), validated in
declaration order. -/
def mkTaskSubmission (kwargs : List (String × FieldVal)) :
    Except PyError TaskSubmissionRec := do
  let tid ← getStrField kwargs "task_id"
  let sh ← getStrField kwargs "spec_hash"
  let sp ← getStrField kwargs "species"
  let sv ← getStrField kwargs "service"
  let st ← getStatusField kwargs "status"
  let cb ← getStrField kwargs "callback_url"
  return ⟨tid, sh, sp, sv, st, cb⟩

/-- The payload dict built by `submit_task` (text3d_service.py lines 45-61),
in insertion order. -/
def text3dPayload (prompt artStyle modelVersion negativePrompt : String)
    (enablePbr enableRetexture : Bool) (callbackUrl : String)
    (seed : Option Int) : Json :=
  .obj
    ([("mode", .str "preview"), ("prompt", .str prompt),
      ("art_style", .str artStyle), ("model_version", .str modelVersion),
      ("negative_prompt", .str negativePrompt), ("enable_pbr", .bool enablePbr),
      ("ai_model", .str "meshy-4"), ("topology", .str "quad"),
      ("callback_url", .str callbackUrl)] ++
      (if enableRetexture then [("should_remesh", .bool true)] else []) ++
      (match seed with
       | some n => [("seed", .num n)]
       | none => []))

/-- Model of `Text3DService.submit_task`.  The remote create response body is
summarized by its `result` member: `none` when the key is absent (Python
raises `KeyError`), `some none` for JSON null, `some (some tid)` for a
string.  On success the constructed submission is recorded by appending it to
the repository and returned. -/
def submitTask (resultField : Option (Option String))
    (project prompt callbackUrl artStyle modelVersion negativePrompt : String)
    (enablePbr enableRetexture : Bool) (seed : Option Int)
    (repo : List TaskSubmissionRec) :
    Except PyError (TaskSubmissionRec × List TaskSubmissionRec) :=
  match resultField with
  | none => .error (.keyError "result")
  | some none => .error (.valueError "Meshy API returned empty task_id")
  | some (some tid) =>
      if tid = "" then .error (.valueError "Meshy API returned empty task_id")
      else
        let specHash :=
          toString (computeSpecHash (text3dPayload prompt artStyle modelVersion
            negativePrompt enablePbr enableRetexture callbackUrl seed))
        match mkTaskSubmission
            [("task_id", .s tid), ("spec_hash", .s specHash),
             ("project", .s project), ("service", .s "text3d"),
             ("status", .st .PENDING), ("callback_url", .s callbackUrl)] with
        | .error e => .error e
        | .ok sub => .ok (sub, repo ++ [sub])

theorem mkTaskSubmission_submit_kwargs (tidv shv prov cbv : String) :
    mkTaskSubmission
        [("task_id", .s tidv), ("spec_hash", .s shv), ("project", .s prov),
         ("service", .s "text3d"), ("status", .st .PENDING),
         ("callback_url", .s cbv)] =
      .error (.pydanticValidationError "species") := rfl

/-- Claim C10: the error paths of `submit_task` leave the repository unchanged as
the claim states (an absent `result` key raising `KeyError` rather than a
validation error), but the success path of the claim fails on the code: for
every non-empty task identifier, constructing the `TaskSubmission` raises a
pydantic validation error, because the service passes a `project` keyword
while the schema requires `species` — no submission is ever recorded,
contradicting the tests shipped with the repository. -/
theorem c10_submit_task
    (project prompt callbackUrl artStyle modelVersion negativePrompt : String)
    (enablePbr enableRetexture : Bool) (seed : Option Int)
    (repo : List TaskSubmissionRec) :
    (submitTask none project prompt callbackUrl artStyle modelVersion
        negativePrompt enablePbr enableRetexture seed repo =
      .error (.keyError "result")) ∧
    (submitTask (some none) project prompt callbackUrl artStyle modelVersion
        negativePrompt enablePbr enableRetexture seed repo =
      .error (.valueError "Meshy API returned empty task_id")) ∧
    (submitTask (some (some "")) project prompt callbackUrl artStyle
        modelVersion negativePrompt enablePbr enableRetexture seed repo =
      .error (.valueError "Meshy API returned empty task_id")) ∧
    (∀ tid, tid ≠ "" →
      submitTask (some (some tid)) project prompt callbackUrl artStyle
          modelVersion negativePrompt enablePbr enableRetexture seed repo =
        .error (.pydanticValidationError "species")) := by
  refine ⟨rfl, rfl, by simp [submitTask], ?_⟩
  intro tid htid
  simp [submitTask, htid, mkTaskSubmission_submit_kwargs]

/-- Witness for C10 at a concrete successful remote response. -/
theorem c10_witness :
    submitTask (some (some "task-123")) "otter" "An otter" "https://cb"
        "sculpture" "latest" "" true true none [] =
      .error (.pydanticValidationError "species") :=
  (c10_submit_task "otter" "An otter" "https://cb" "sculpture" "latest" ""
    true true none []).2.2.2 "task-123" (by decide)

end MeshToolkit
